import Mathlib

/-!
Verification development for the Telegram reminder bot (`main.py`).

The embedding covers the core selected by the specification:
the event store (per-user sharded SQLite files), the wizard state
machine that collects a new event over several conversational turns
(`save_description`, `save_date`, `select_time`, `save_custom_time`,
`process_event_creation`), and the reminder scheduler sweep
(`check_and_send_reminders` body, `get_events_for_specific_time`).

Dates are modelled as proleptic-Gregorian calendar dates with the same
ordinal arithmetic as CPython's `datetime.date` (`_days_before_year`,
`_days_before_month`, `toordinal`).  The strict `strptime` parses used
by the source (`"%d.%m.%Y"`, `"%Y-%m-%d"`, `"%H:%M"`) are modelled
after CPython's `_strptime` compiled regexes: `%d` matches
`3[01]|[12]\d|0[1-9]|[1-9]`, `%m` matches `1[0-2]|0[1-9]|[1-9]`,
`%Y` matches exactly four digits, `%H` matches `2[0-3]|[0-1]\d|\d`,
`%M` matches `[0-5]\d|\d`, literal separators match themselves, and
the whole input must be consumed; the `datetime` constructor then
rejects day-of-month overflow and year 0.
-/

/-! ### Calendar dates (CPython `datetime.date` arithmetic) -/

structure Date where
  year : Nat
  month : Nat
  day : Nat
deriving DecidableEq

def isLeap (y : Nat) : Bool := (y % 4 == 0 && y % 100 != 0) || (y % 400 == 0)

def daysInMonth (y m : Nat) : Nat :=
  if m = 2 then (if isLeap y then 29 else 28)
  else if m = 4 ∨ m = 6 ∨ m = 9 ∨ m = 11 then 30
  else 31

def daysInYear (y : Nat) : Nat := if isLeap y then 366 else 365

/-- CPython `_days_before_month(year, month)`: days in `year` preceding
the first of `month` (month counted 1..12). -/
def daysBeforeMonth (y : Nat) : Nat → Nat
  | 0 => 0
  | m + 1 => if m = 0 then 0 else daysBeforeMonth y m + daysInMonth y m

/-- CPython `_days_before_year(year)`:
`y = year - 1; y*365 + y//4 - y//100 + y//400`. -/
def daysBeforeYear (y : Nat) : Nat :=
  365 * (y - 1) + ((y - 1) / 4 - (y - 1) / 100 + (y - 1) / 400)

/-- CPython `date.toordinal()`. -/
def Date.toOrdinal (d : Date) : Nat :=
  daysBeforeYear d.year + daysBeforeMonth d.year d.month + d.day

/-- The constraints `datetime.date` enforces on its components
(`MINYEAR = 1`; day within the month). -/
def validDate (d : Date) : Bool :=
  decide (1 ≤ d.year ∧ 1 ≤ d.month ∧ d.month ≤ 12 ∧
    1 ≤ d.day ∧ d.day ≤ daysInMonth d.year d.month)

/-- Python `date` comparison: lexicographic on (year, month, day). -/
def dateLt (a b : Date) : Bool :=
  decide (a.year < b.year ∨ (a.year = b.year ∧
    (a.month < b.month ∨ (a.month = b.month ∧ a.day < b.day))))

/-- Source `(event - today).days` for two `date` values. -/
def dateDiff (a b : Date) : Int := (a.toOrdinal : Int) - (b.toOrdinal : Int)

/-! ### Characters and strict `strptime` parsing -/

/-- Characters removed by Python's `str.strip()` (ASCII whitespace). -/
def isPySpace (c : Char) : Bool :=
  c == ' ' || c == '\t' || c == '\n' || c == '\r' || c == '\x0b' || c == '\x0c'

def pyStrip (cs : List Char) : List Char :=
  ((cs.dropWhile isPySpace).reverse.dropWhile isPySpace).reverse

/-- Source `text.strip()`. -/
def pyStripS (s : String) : String := String.mk (pyStrip s.data)

def isDigitChar (c : Char) : Bool := decide (48 ≤ c.toNat ∧ c.toNat ≤ 57)

def digitVal (c : Char) : Nat := c.toNat - 48

def natOfDigits (cs : List Char) : Nat :=
  cs.foldl (fun acc c => 10 * acc + digitVal c) 0

/-- Split a character list at every occurrence of `sep`.  Because the
date/time field regexes match only digit characters while the format
separators are the literal characters `.`/`:`/`-`, CPython's anchored
full-match of the compiled format regex is equivalent to: splitting on
the separator yields exactly the field tokens, each matching its field
alternation. -/
def splitOnChar (sep : Char) : List Char → List (List Char)
  | [] => [[]]
  | c :: rest =>
    match splitOnChar sep rest with
    | [] => [[]]
    | g :: gs => if c = sep then [] :: g :: gs else (c :: g) :: gs

/-- Source `%d` field: `3[01]|[12]\d|0[1-9]|[1-9]` — one digit valued 1..9, or
two digits valued 1..31. -/
def dayTok (cs : List Char) : Bool :=
  cs.all isDigitChar && decide
    ((cs.length = 1 ∧ 1 ≤ natOfDigits cs ∧ natOfDigits cs ≤ 9) ∨
     (cs.length = 2 ∧ 1 ≤ natOfDigits cs ∧ natOfDigits cs ≤ 31))

/-- Source `%m` field: `1[0-2]|0[1-9]|[1-9]` — one digit valued 1..9, or two
digits valued 1..12. -/
def monthTok (cs : List Char) : Bool :=
  cs.all isDigitChar && decide
    ((cs.length = 1 ∧ 1 ≤ natOfDigits cs ∧ natOfDigits cs ≤ 9) ∨
     (cs.length = 2 ∧ 1 ≤ natOfDigits cs ∧ natOfDigits cs ≤ 12))

/-- Source `%Y` field: exactly four digits. -/
def yearTok (cs : List Char) : Bool :=
  cs.all isDigitChar && decide (cs.length = 4)

/-- Source `%H` field: `2[0-3]|[0-1]\d|\d` — one digit, or two digits ≤ 23. -/
def hourTok (cs : List Char) : Bool :=
  cs.all isDigitChar && decide
    ((cs.length = 1 ∧ natOfDigits cs ≤ 9) ∨
     (cs.length = 2 ∧ natOfDigits cs ≤ 23))

/-- Source `%M` field: `[0-5]\d|\d` — one digit, or two digits ≤ 59. -/
def minuteTok (cs : List Char) : Bool :=
  cs.all isDigitChar && decide
    ((cs.length = 1 ∧ natOfDigits cs ≤ 9) ∨
     (cs.length = 2 ∧ natOfDigits cs ≤ 59))

/-- Source `datetime.strptime(s, "%d.%m.%Y")` followed by extraction of the
date: `None` models the `ValueError` path (regex mismatch, unconverted
trailing data, day overflow for the month, or year 0). -/
def parseDMY (s : String) : Option Date :=
  match splitOnChar '.' s.data with
  | [d, m, y] =>
    if dayTok d && monthTok m && yearTok y then
      if 1 ≤ natOfDigits y ∧
          natOfDigits d ≤ daysInMonth (natOfDigits y) (natOfDigits m) then
        some ⟨natOfDigits y, natOfDigits m, natOfDigits d⟩
      else none
    else none
  | _ => none

/-- Source `datetime.strptime(s, "%Y-%m-%d")`. -/
def parseYMD (s : String) : Option Date :=
  match splitOnChar '-' s.data with
  | [y, m, d] =>
    if yearTok y && monthTok m && dayTok d then
      if 1 ≤ natOfDigits y ∧
          natOfDigits d ≤ daysInMonth (natOfDigits y) (natOfDigits m) then
        some ⟨natOfDigits y, natOfDigits m, natOfDigits d⟩
      else none
    else none
  | _ => none

/-- Source `datetime.strptime(s, "%H:%M")` used purely as a validity check by
`save_custom_time` (the parsed value is discarded). -/
def parseHM (s : String) : Bool :=
  match splitOnChar ':' s.data with
  | [h, m] => hourTok h && minuteTok m
  | _ => false

/-- The scheduler's (and listing code's) stored-date parse:
`"%Y-%m-%d"` when the string contains `'-'`, else `"%d.%m.%Y"`. -/
def parseStoredDate (s : String) : Option Date :=
  if s.data.contains '-' then parseYMD s else parseDMY s

/-! ### Formatting (`strftime`) -/

def pad2Chars (n : Nat) : List Char :=
  [Nat.digitChar (n / 10 % 10), Nat.digitChar (n % 10)]

def pad4Chars (n : Nat) : List Char :=
  [Nat.digitChar (n / 1000 % 10), Nat.digitChar (n / 100 % 10),
   Nat.digitChar (n / 10 % 10), Nat.digitChar (n % 10)]

/-- Source `event_date.strftime("%Y-%m-%d")` — canonical ISO form stored in
the DB by `save_date`. -/
def isoString (d : Date) : String :=
  String.mk (pad4Chars d.year ++ '-' :: pad2Chars d.month ++ '-' :: pad2Chars d.day)

/-- Source `event_date.strftime('%d.%m.%Y')` — display form in reminders. -/
def fmtDMY (d : Date) : String :=
  String.mk (pad2Chars d.day ++ '.' :: pad2Chars d.month ++ '.' :: pad4Chars d.year)

/-- Source `get_current_time()`: `get_now().strftime("%H:%M")`, always
zero-padded two-digit hour and minute. -/
def get_current_time (h m : Nat) : String :=
  String.mk (pad2Chars h ++ ':' :: pad2Chars m)

/-! ### Event store (per-user sharded SQLite files)

One `UserDB` models one `events_user_{uid}.db` file; `Store` is the
directory, an association list from user id to that user's database.
`getDB` of an absent user is the freshly created empty table
(`create_table_if_not_exists`), whose AUTOINCREMENT counter starts
at 1. -/

structure EventRow where
  id : Nat
  user_id : Nat
  description : String
  event_date : String
  notify_time : String
deriving DecidableEq

structure UserDB where
  rows : List EventRow
  nextId : Nat
deriving DecidableEq

abbrev Store := List (Nat × UserDB)

def emptyDB : UserDB := ⟨[], 1⟩

def getDB : Store → Nat → UserDB
  | [], _ => emptyDB
  | (u, db) :: rest, uid => if u = uid then db else getDB rest uid

def setDB : Store → Nat → UserDB → Store
  | [], uid, db => [(uid, db)]
  | (u, d) :: rest, uid, db =>
    if u = uid then (uid, db) :: rest else (u, d) :: setDB rest uid db

/-- Source `save_event(user_id, description, event_date, notify_time)`.
`dbFail` abstracts the environment failures the source guards against
(`get_db_connection` returning `None`, or the INSERT raising): on
failure nothing is committed and `None` is returned; on success the row
is inserted and `cursor.lastrowid` is returned. -/
def save_event (dbFail : Bool) (s : Store) (user_id : Nat)
    (description event_date : String) (notify_time : String) :
    Store × Option Nat :=
  if dbFail then (s, none)
  else
    let db := getDB s user_id
    (setDB s user_id
      ⟨db.rows ++ [⟨db.nextId, user_id, description, event_date, notify_time⟩],
        db.nextId + 1⟩,
      some db.nextId)

/-- SQLite TEXT ordering (byte-wise `memcmp`, equivalently codepoint
lexicographic for UTF-8). -/
def charsLe : List Char → List Char → Bool
  | [], _ => true
  | _ :: _, [] => false
  | a :: as, b :: bs =>
    if a.toNat < b.toNat then true
    else if b.toNat < a.toNat then false
    else charsLe as bs

def strLe (a b : String) : Bool := charsLe a.data b.data

def insertByDate (x : Nat × String × String × String) :
    List (Nat × String × String × String) → List (Nat × String × String × String)
  | [] => [x]
  | y :: ys => if strLe x.2.2.1 y.2.2.1 then x :: y :: ys else y :: insertByDate x ys

def sortByDate : List (Nat × String × String × String) →
    List (Nat × String × String × String)
  | [] => []
  | x :: xs => insertByDate x (sortByDate xs)

/-- Source `get_user_events(user_id)`:
`SELECT id, description, event_date, notify_time FROM events
 WHERE user_id = ? ORDER BY event_date` against that user's database. -/
def get_user_events (s : Store) (user_id : Nat) :
    List (Nat × String × String × String) :=
  sortByDate (((getDB s user_id).rows.filter (fun r => r.user_id == user_id)).map
    (fun r => (r.id, r.description, r.event_date, r.notify_time)))

/-- Source `get_event(event_id, user_id)`:
`SELECT id, description, event_date, notify_time FROM events
 WHERE id = ? AND user_id = ?` + `fetchone()`. -/
def get_event (s : Store) (event_id user_id : Nat) :
    Option (Nat × String × String × String) :=
  (((getDB s user_id).rows.filter
      (fun r => r.id == event_id && r.user_id == user_id)).map
    (fun r => (r.id, r.description, r.event_date, r.notify_time))).head?

/-- Source `delete_event(event_id, user_id)`:
`DELETE FROM events WHERE id = ? AND user_id = ?`, result
`cursor.rowcount > 0`. -/
def delete_event (s : Store) (event_id user_id : Nat) : Store × Bool :=
  let db := getDB s user_id
  let kept := db.rows.filter (fun r => !(r.id == event_id && r.user_id == user_id))
  (setDB s user_id ⟨kept, db.nextId⟩, decide (kept.length < db.rows.length))

/-- Source `get_events_for_specific_time(notify_time)`: fan-out over every
per-user database file, in each one
`SELECT user_id, id, description, event_date FROM events
 WHERE notify_time = ?`, concatenating the results. -/
def get_events_for_specific_time : Store → String → List (Nat × Nat × String × String)
  | [], _ => []
  | (_, db) :: rest, t =>
    ((db.rows.filter (fun r => r.notify_time == t)).map
      (fun r => (r.user_id, r.id, r.description, r.event_date)))
      ++ get_events_for_specific_time rest t

/-- Well-formedness that the source's access pattern maintains for the
sharded layout: distinct files per user id, every row in a user's file
carries that user's id, and ids are unique within a file. -/
def storeWF (s : Store) : Prop :=
  (s.map Prod.fst).Nodup ∧
  ∀ p ∈ s, (∀ r ∈ p.2.rows, r.user_id = p.1) ∧ (p.2.rows.map EventRow.id).Nodup

/-! ### Wizard state machine (aiogram FSM handlers)

The FSM context per user: a state tag (`EventStates` / `None`) and the
`user_data` dictionary.  `state.clear()` resets both.  Responses are
modelled as an inductive tag carrying exactly the dynamic data the
source interpolates into the message text. -/

inductive WizState where
  | idle
  | waiting_description
  | waiting_date
  | waiting_time
deriving DecidableEq

structure SessionData where
  description : Option String
  event_date : Option String
  display_date : Option String
deriving DecidableEq

structure WizardSession where
  state : WizState
  data : SessionData
deriving DecidableEq

def emptyData : SessionData := ⟨none, none, none⟩

def clearedSession : WizardSession := ⟨.idle, emptyData⟩

/-- The reply-keyboard cancel button text checked by the handlers. -/
def cancelText : String := "❌ Отмена"

/-- The six fixed notification-time choices offered by
`get_time_buttons()` (callback data `time_{t}`). -/
def fixedTimes : List String := ["07:00", "09:00", "12:00", "15:00", "18:00", "21:00"]

inductive Reply where
  | askDescription
  | cancelled
  | askDate
  | dateFormatError
  | pastDateError
  | dateAccepted (display : String)
  | askCustomTime
  | timeFormatError
  | missingData
  | saveFailed
  | success (event_id : Nat) (description display_date notify_time days_left : String)
deriving DecidableEq

/-- Source `start_add_event`: prompt for a description and enter
`waiting_description`; `set_state` does not touch `user_data`. -/
def start_add_event (sess : WizardSession) : WizardSession × Reply :=
  ({ sess with state := .waiting_description }, .askDescription)

/-- Source `save_description`: store `message.text` verbatim, prompt for the
date, enter `waiting_date`. -/
def save_description (sess : WizardSession) (text : String) : WizardSession × Reply :=
  (⟨.waiting_date, { sess.data with description := some text }⟩, .askDate)

/-- Dispatch of a text turn in `waiting_description`: the
`cancel_adding` handler is registered before `save_description`. -/
def handle_description_turn (sess : WizardSession) (text : String) :
    WizardSession × Reply :=
  if text = cancelText then (clearedSession, .cancelled)
  else save_description sess text

/-- Source `save_date`: strip the text, parse strictly as `"%d.%m.%Y"`;
`ValueError` → format-error reply, nothing changes; a parsed date
strictly before today → past-date reply, nothing changes; otherwise
store the ISO form plus the display string and enter `waiting_time`. -/
def save_date (today : Date) (sess : WizardSession) (text : String) :
    WizardSession × Reply :=
  let date_text := pyStripS text
  match parseDMY date_text with
  | none => (sess, .dateFormatError)
  | some d =>
    if dateLt d today then (sess, .pastDateError)
    else
      (⟨.waiting_time,
        { sess.data with event_date := some (isoString d),
                         display_date := some date_text }⟩,
       .dateAccepted date_text)

/-- Dispatch of a text turn in `waiting_date`: `cancel_date` is
registered before `save_date`. -/
def handle_date_turn (today : Date) (sess : WizardSession) (text : String) :
    WizardSession × Reply :=
  if text = cancelText then (clearedSession, .cancelled)
  else save_date today sess text

/-- Source `datetime.strptime(event_date, "%Y-%m-%d")` then
`(event_date_obj - get_today()).days`, with the bare `except` giving
`"?"`. -/
def daysLeftDisplay (today : Date) (event_date : String) : String :=
  match parseYMD event_date with
  | some d => toString (dateDiff d today)
  | none => "?"

/-- Source `process_event_creation`: defensive check that both collected
fields are present, one `save_event` attempt (`if not event_id` treats
`None` and `0` as failure), then either the success summary or the
failure notice; `state.clear()` on every exit. -/
def process_event_creation (today : Date) (dbFail : Bool) (s : Store)
    (user_id : Nat) (sess : WizardSession) (notify_time : String) :
    Store × WizardSession × Reply :=
  match sess.data.description, sess.data.event_date with
  | some description, some event_date =>
    match save_event dbFail s user_id description event_date notify_time with
    | (s', some event_id) =>
      if event_id = 0 then (s', clearedSession, .saveFailed)
      else
        let display_date := sess.data.display_date.getD event_date
        (s', clearedSession,
          .success event_id description display_date notify_time
            (daysLeftDisplay today event_date))
    | (s', none) => (s', clearedSession, .saveFailed)
  | _, _ => (s, clearedSession, .missingData)

/-- Source `select_time` callback (`time_{t}` button): pass the chosen time
straight to finalization. -/
def select_time (today : Date) (dbFail : Bool) (s : Store) (user_id : Nat)
    (sess : WizardSession) (t : String) : Store × WizardSession × Reply :=
  process_event_creation today dbFail s user_id sess t

/-- Source `save_custom_time`: cancel check on the raw text, then strip and
validate with `"%H:%M"`; on success the *stripped text itself* is the
notification time passed to finalization. -/
def save_custom_time (today : Date) (dbFail : Bool) (s : Store) (user_id : Nat)
    (sess : WizardSession) (text : String) : Store × WizardSession × Reply :=
  if text = cancelText then (s, clearedSession, .cancelled)
  else
    let time_text := pyStripS text
    if parseHM time_text then
      process_event_creation today dbFail s user_id sess time_text
    else (s, sess, .timeFormatError)

/-! ### Reminder scheduler (`check_and_send_reminders` sweep body) -/

inductive Outbound where
  | daily (description date_fmt current_time : String) (days_left : Int)
  | congrat (description : String)
  | fallback (description : String)
deriving DecidableEq

/-- The outbound message texts built by the sweep. -/
def renderOutbound : Outbound → String
  | .daily d f ct n =>
    "⏰ <b>Ежедневное напоминание!</b>\n\n📝 Событие: <b>" ++ d ++
    "</b>\n📅 Дата: " ++ f ++ "\n⏰ Следующее напоминание: завтра в " ++ ct ++
    "\n⏳ Осталось дней: <b>" ++ toString n ++ "</b>"
  | .congrat d =>
    "🎉 <b>СЕГОДНЯ НАСТУПАЕТ СОБЫТИЕ!</b>\n\n📝 <b>" ++ d ++
    "</b>\n\nПоздравляем! 🎊\n\nЭто последнее напоминание об этом событии."
  | .fallback d => "⏰ Напоминание: " ++ d

/-- Per-event body of the sweep over one
`(user_id, event_id, description, event_date_str)` row: parse the
stored date (ISO if it contains `'-'`, else display form); day-delta
`> 0` → daily countdown message, `= 0` → congratulatory message,
`< 0` → nothing; unparseable → plain fallback with the description
only. -/
def processEvent (today : Date) (current_time : String)
    (ev : Nat × Nat × String × String) : Option Outbound :=
  match parseStoredDate ev.2.2.2 with
  | some d =>
    let days_left : Int := dateDiff d today
    if 0 < days_left then some (.daily ev.2.2.1 (fmtDMY d) current_time days_left)
    else if days_left = 0 then some (.congrat ev.2.2.1)
    else none
  | none => some (.fallback ev.2.2.1)

/-- One event's independently-guarded iteration: the message (if any)
paired with whether `bot.send_message` delivered it; `ok = false`
models the send raising, which the per-event `try/except` absorbs. -/
def attemptFor (ok : Bool) (today : Date) (current_time : String)
    (ev : Nat × Nat × String × String) : Option (Outbound × Bool) :=
  (processEvent today current_time ev).map (fun msg => (msg, ok))

def sweepAux (deliverOk : Nat → Bool) (today : Date) (current_time : String) :
    Nat → List (Nat × Nat × String × String) → List (Option (Outbound × Bool))
  | _, [] => []
  | i, ev :: rest =>
    attemptFor (deliverOk i) today current_time ev ::
      sweepAux deliverOk today current_time (i + 1) rest

/-- One sweep of `check_and_send_reminders`: query the store for the
current minute's events and iterate over all of them; the loop body
never writes to the store (the store is returned unchanged). -/
def check_and_send_reminders_body (deliverOk : Nat → Bool) (today : Date)
    (current_time : String) (s : Store) : Store × List (Option (Outbound × Bool)) :=
  (s, sweepAux deliverOk today current_time 0
        (get_events_for_specific_time s current_time))

/-! ### Helper lemmas -/

theorem getDB_setDB (s : Store) (uid : Nat) (db : UserDB) (u : Nat) :
    getDB (setDB s uid db) u = if u = uid then db else getDB s u := by
  induction s with
  | nil =>
    simp only [setDB, getDB]
    by_cases h : u = uid
    · simp [h]
    · rw [if_neg (by omega : ¬uid = u), if_neg h]
  | cons p rest ih =>
    obtain ⟨v, dv⟩ := p
    simp only [setDB]
    by_cases hv : v = uid
    · subst hv
      simp only [if_pos rfl, getDB]
      by_cases h : u = v
      · simp [h]
      · rw [if_neg (by omega : ¬v = u), if_neg h, if_neg (by omega : ¬v = u)]
    · simp only [if_neg hv, getDB]
      by_cases h : v = u
      · subst h
        rw [if_pos rfl, if_neg hv, if_pos rfl]
      · rw [if_neg h, ih, if_neg h]

theorem getDB_setDB_self (s : Store) (uid : Nat) (db : UserDB) :
    getDB (setDB s uid db) uid = db := by simp [getDB_setDB]

theorem getDB_setDB_ne (s : Store) (uid : Nat) (db : UserDB) (u : Nat)
    (h : u ≠ uid) : getDB (setDB s uid db) u = getDB s u := by
  simp [getDB_setDB, h]

theorem mem_events_for_time_iff (s : Store) (t : String)
    (x : Nat × Nat × String × String) :
    x ∈ get_events_for_specific_time s t ↔
      ∃ p ∈ s, ∃ r ∈ p.2.rows, r.notify_time = t ∧
        (r.user_id, r.id, r.description, r.event_date) = x := by
  induction s with
  | nil => simp [get_events_for_specific_time]
  | cons p rest ih =>
    obtain ⟨u, db⟩ := p
    simp only [get_events_for_specific_time, List.mem_append, List.mem_map,
      List.mem_filter, ih, List.mem_cons]
    constructor
    · rintro (⟨r, ⟨hr, hnt⟩, hx⟩ | ⟨q, hq, r, hr, hnt, hx⟩)
      · exact ⟨(u, db), Or.inl rfl, r, hr, by simpa using hnt, hx⟩
      · exact ⟨q, Or.inr hq, r, hr, hnt, hx⟩
    · rintro ⟨q, hq | hq, r, hr, hnt, hx⟩
      · subst hq
        exact Or.inl ⟨r, ⟨hr, by simpa using hnt⟩, hx⟩
      · exact Or.inr ⟨q, hq, r, hr, hnt, hx⟩

theorem nodup_map_eq {α β : Type} {f : α → β} {l : List α}
    (h : (l.map f).Nodup) {a b : α} (ha : a ∈ l) (hb : b ∈ l)
    (hf : f a = f b) : a = b := by
  induction l with
  | nil => cases ha
  | cons c cs ih =>
    simp only [List.map_cons, List.nodup_cons] at h
    rcases List.mem_cons.mp ha with rfl | ha' <;>
      rcases List.mem_cons.mp hb with rfl | hb'
    · rfl
    · exact absurd (hf ▸ List.mem_map_of_mem f hb') h.1
    · exact absurd (hf ▸ List.mem_map_of_mem f ha') h.1
    · exact ih h.2 ha' hb'

theorem sweepAux_length (ok : Nat → Bool) (today : Date) (ct : String) :
    ∀ (l : List (Nat × Nat × String × String)) (j : Nat),
      (sweepAux ok today ct j l).length = l.length := by
  intro l
  induction l with
  | nil => intro j; rfl
  | cons e es ih => intro j; simp [sweepAux, ih]

theorem sweepAux_getElem? (ok : Nat → Bool) (today : Date) (ct : String) :
    ∀ (l : List (Nat × Nat × String × String)) (j i : Nat),
      (sweepAux ok today ct j l)[i]? =
        (l[i]?).map (attemptFor (ok (j + i)) today ct) := by
  intro l
  induction l with
  | nil => intro j i; simp [sweepAux]
  | cons e es ih =>
    intro j i
    cases i with
    | zero => simp [sweepAux]
    | succ k =>
      simp only [sweepAux, List.getElem?_cons_succ]
      rw [ih (j + 1) k, show j + (k + 1) = j + 1 + k by omega]

theorem daysBeforeYear_succ (y : Nat) (hy : 1 ≤ y) :
    daysBeforeYear (y + 1) = daysBeforeYear y + daysInYear y := by
  obtain ⟨p, rfl⟩ : ∃ p, y = p + 1 := ⟨y - 1, by omega⟩
  simp only [daysBeforeYear, daysInYear, isLeap, Nat.add_sub_cancel]
  split <;> rename_i h <;>
    simp only [Bool.or_eq_true, Bool.and_eq_true, beq_iff_eq, bne_iff_ne,
      ne_eq, not_or, Bool.not_eq_true] at h <;> omega

theorem daysBeforeYear_mono (y y' : Nat) (h1 : 1 ≤ y) (h : y ≤ y') :
    daysBeforeYear y ≤ daysBeforeYear y' := by
  induction y', h using Nat.le_induction with
  | base => exact Nat.le_refl _
  | succ n hn ih =>
    calc daysBeforeYear y ≤ daysBeforeYear n := ih
    _ ≤ daysBeforeYear (n + 1) := by
        rw [daysBeforeYear_succ n (by omega)]; omega

theorem daysBeforeMonth_succ (y m : Nat) (hm : 1 ≤ m) :
    daysBeforeMonth y (m + 1) = daysBeforeMonth y m + daysInMonth y m := by
  cases m with
  | zero => omega
  | succ k => simp [daysBeforeMonth]

theorem daysBeforeMonth_mono (y : Nat) {m m' : Nat} (h : m ≤ m') :
    daysBeforeMonth y m ≤ daysBeforeMonth y m' := by
  induction m', h using Nat.le_induction with
  | base => exact Nat.le_refl _
  | succ n hn ih =>
    refine le_trans ih ?_
    cases n with
    | zero => simp [daysBeforeMonth]
    | succ k => simp [daysBeforeMonth]

theorem daysBeforeMonth_thirteen (y : Nat) :
    daysBeforeMonth y 13 = daysInYear y := by
  by_cases h : isLeap y <;>
    simp [daysInYear, h, show (13 : Nat) = 12 + 1 from rfl,
      show (12 : Nat) = 11 + 1 from rfl, show (11 : Nat) = 10 + 1 from rfl,
      show (10 : Nat) = 9 + 1 from rfl, show (9 : Nat) = 8 + 1 from rfl,
      show (8 : Nat) = 7 + 1 from rfl, show (7 : Nat) = 6 + 1 from rfl,
      show (6 : Nat) = 5 + 1 from rfl, show (5 : Nat) = 4 + 1 from rfl,
      show (4 : Nat) = 3 + 1 from rfl, show (3 : Nat) = 2 + 1 from rfl,
      show (2 : Nat) = 1 + 1 from rfl, daysBeforeMonth, daysInMonth]

theorem ord_lt_of_dateLt (a b : Date) (ha : validDate a = true)
    (hb : validDate b = true) (hlt : dateLt a b = true) :
    a.toOrdinal < b.toOrdinal := by
  simp only [validDate, decide_eq_true_eq] at ha hb
  simp only [dateLt, decide_eq_true_eq] at hlt
  obtain ⟨hay, ham1, ham2, had1, had2⟩ := ha
  obtain ⟨hby, hbm1, hbm2, hbd1, hbd2⟩ := hb
  unfold Date.toOrdinal
  have hmono_a : daysBeforeMonth a.year a.month + a.day ≤ daysInYear a.year := by
    have h1 : daysBeforeMonth a.year a.month + a.day ≤
        daysBeforeMonth a.year (a.month + 1) := by
      rw [daysBeforeMonth_succ _ _ ham1]; omega
    have h2 : daysBeforeMonth a.year (a.month + 1) ≤ daysBeforeMonth a.year 13 :=
      daysBeforeMonth_mono _ (by omega)
    rw [daysBeforeMonth_thirteen] at h2
    omega
  rcases hlt with hy | ⟨hy, hm | ⟨hm, hd⟩⟩
  · have h2 : daysBeforeYear a.year + daysInYear a.year = daysBeforeYear (a.year + 1) :=
      (daysBeforeYear_succ a.year hay).symm
    have h3 : daysBeforeYear (a.year + 1) ≤ daysBeforeYear b.year :=
      daysBeforeYear_mono _ _ (by omega) (by omega)
    omega
  · have h1 : daysBeforeMonth a.year a.month + a.day ≤
        daysBeforeMonth a.year (a.month + 1) := by
      rw [daysBeforeMonth_succ _ _ ham1]; omega
    have h2 : daysBeforeMonth a.year (a.month + 1) ≤ daysBeforeMonth a.year b.month :=
      daysBeforeMonth_mono _ (by omega)
    rw [hy] at h1 h2 ⊢
    omega
  · rw [hy, hm]
    omega

theorem monthTok_bounds {cs : List Char} (h : monthTok cs = true) :
    1 ≤ natOfDigits cs ∧ natOfDigits cs ≤ 12 := by
  simp only [monthTok, Bool.and_eq_true, decide_eq_true_eq] at h
  rcases h.2 with ⟨_, h1, h2⟩ | ⟨_, h1, h2⟩ <;> omega

theorem dayTok_bounds {cs : List Char} (h : dayTok cs = true) :
    1 ≤ natOfDigits cs ∧ natOfDigits cs ≤ 31 := by
  simp only [dayTok, Bool.and_eq_true, decide_eq_true_eq] at h
  rcases h.2 with ⟨_, h1, h2⟩ | ⟨_, h1, h2⟩ <;> omega

theorem parseDMY_valid {s : String} {d : Date} (h : parseDMY s = some d) :
    validDate d = true := by
  unfold parseDMY at h
  split at h
  · rename_i dtok mtok ytok heq
    split at h
    · rename_i htok
      split at h
      · rename_i hval
        simp only [Option.some.injEq] at h
        subst h
        simp only [Bool.and_eq_true] at htok
        have hm := monthTok_bounds htok.1.2
        have hd := dayTok_bounds htok.1.1
        simp only [validDate, decide_eq_true_eq]
        exact ⟨hval.1, hm.1, hm.2, hd.1, hval.2⟩
      · exact absurd h (by simp)
    · exact absurd h (by simp)
  · exact absurd h (by simp)

theorem parseYMD_valid {s : String} {d : Date} (h : parseYMD s = some d) :
    validDate d = true := by
  unfold parseYMD at h
  split at h
  · rename_i ytok mtok dtok heq
    split at h
    · rename_i htok
      split at h
      · rename_i hval
        simp only [Option.some.injEq] at h
        subst h
        simp only [Bool.and_eq_true] at htok
        have hm := monthTok_bounds htok.1.2
        have hd := dayTok_bounds htok.2
        simp only [validDate, decide_eq_true_eq]
        exact ⟨hval.1, hm.1, hm.2, hd.1, hval.2⟩
      · exact absurd h (by simp)
    · exact absurd h (by simp)
  · exact absurd h (by simp)

theorem parseStoredDate_valid {s : String} {d : Date}
    (h : parseStoredDate s = some d) : validDate d = true := by
  unfold parseStoredDate at h
  split at h
  · exact parseYMD_valid h
  · exact parseDMY_valid h

/-! ### Claim theorems -/

/-- Claim C2: in the `waiting_date` state, text that does not parse
strictly as DD.MM.YYYY (including invalid calendar dates) yields a
format-error reply with the session untouched; a parsed date strictly
before today yields a past-date reply with the session untouched (a
date equal to today is not before today, so it is accepted); otherwise
the canonical ISO form and the display string are stored and the
wizard moves to `waiting_time`. -/
theorem C2_save_date (today : Date) (sess : WizardSession) (text : String) :
    (parseDMY (pyStripS text) = none →
      save_date today sess text = (sess, .dateFormatError)) ∧
    (∀ d, parseDMY (pyStripS text) = some d → dateLt d today = true →
      save_date today sess text = (sess, .pastDateError)) ∧
    (∀ d, parseDMY (pyStripS text) = some d → dateLt d today = false →
      save_date today sess text =
        (⟨.waiting_time,
           { sess.data with event_date := some (isoString d),
                            display_date := some (pyStripS text) }⟩,
         .dateAccepted (pyStripS text))) := by
  refine ⟨fun h => ?_, fun d h hlt => ?_, fun d h hlt => ?_⟩
  · simp [save_date, h]
  · simp [save_date, h, hlt]
  · simp [save_date, h, hlt]

theorem C2_witness :
    save_date ⟨2025, 6, 15⟩ clearedSession "31.02.2025" =
      (clearedSession, .dateFormatError) ∧
    save_date ⟨2025, 6, 15⟩ clearedSession "14.06.2025" =
      (clearedSession, .pastDateError) ∧
    save_date ⟨2025, 6, 15⟩ clearedSession "15.06.2025" =
      (⟨.waiting_time,
         { clearedSession.data with event_date := some (isoString ⟨2025, 6, 15⟩),
                                    display_date := some (pyStripS "15.06.2025") }⟩,
       .dateAccepted (pyStripS "15.06.2025")) :=
  ⟨(C2_save_date ⟨2025, 6, 15⟩ clearedSession "31.02.2025").1 (by decide),
   (C2_save_date ⟨2025, 6, 15⟩ clearedSession "14.06.2025").2.1
     ⟨2025, 6, 14⟩ (by decide) (by decide),
   (C2_save_date ⟨2025, 6, 15⟩ clearedSession "15.06.2025").2.2
     ⟨2025, 6, 15⟩ (by decide) (by decide)⟩

/-- Claim C8: deleting a non-existent (id, owner) pair reports `false`
and leaves every user's stored rows (and id counter) unchanged; the
embedding is a total function, matching the source's `try/except`
that converts any storage exception into `False`. -/
theorem C8_delete_nonexistent (s : Store) (event_id user_id : Nat)
    (h : ∀ r ∈ (getDB s user_id).rows, ¬(r.id = event_id ∧ r.user_id = user_id)) :
    (delete_event s event_id user_id).2 = false ∧
    ∀ u, getDB (delete_event s event_id user_id).1 u = getDB s u := by
  have hfilter : (getDB s user_id).rows.filter
      (fun r => !(r.id == event_id && r.user_id == user_id)) =
      (getDB s user_id).rows := by
    apply List.filter_eq_self.mpr
    intro r hr
    by_cases h1 : r.id = event_id
    · by_cases h2 : r.user_id = user_id
      · exact absurd ⟨h1, h2⟩ (h r hr)
      · simp [h2]
    · simp [h1]
  have hsnd : (delete_event s event_id user_id).2 =
      decide ((((getDB s user_id).rows.filter
        (fun r => !(r.id == event_id && r.user_id == user_id))).length <
        (getDB s user_id).rows.length)) := rfl
  have hfst : (delete_event s event_id user_id).1 =
      setDB s user_id ⟨(getDB s user_id).rows.filter
        (fun r => !(r.id == event_id && r.user_id == user_id)),
        (getDB s user_id).nextId⟩ := rfl
  constructor
  · rw [hsnd, hfilter]; simp
  · intro u
    rw [hfst, hfilter, getDB_setDB]
    by_cases hu : u = user_id
    · rw [if_pos hu, hu]
    · rw [if_neg hu]

theorem C8_witness :
    (delete_event [(1, ⟨[⟨1, 1, "a", "2099-01-01", "09:00"⟩], 2⟩)] 5 1).2 = false ∧
    getDB (delete_event [(1, ⟨[⟨1, 1, "a", "2099-01-01", "09:00"⟩], 2⟩)] 5 1).1 1 =
      getDB [(1, ⟨[⟨1, 1, "a", "2099-01-01", "09:00"⟩], 2⟩)] 1 :=
  ⟨(C8_delete_nonexistent [(1, ⟨[⟨1, 1, "a", "2099-01-01", "09:00"⟩], 2⟩)] 5 1
      (by decide)).1,
   (C8_delete_nonexistent [(1, ⟨[⟨1, 1, "a", "2099-01-01", "09:00"⟩], 2⟩)] 5 1
      (by decide)).2 1⟩

/-- Claim C5: an event created under owner A is invisible to every
other owner B: B's listing and lookup results are unchanged by the
creation, B's delete cannot remove it (A's database is untouched by
`delete_event` scoped to B), and the new row remains present. -/
theorem C5_owner_isolation (s : Store) (A B : Nat) (d dt nt : String)
    (hAB : A ≠ B) :
    (save_event false s A d dt nt).2 = some (getDB s A).nextId ∧
    get_user_events (save_event false s A d dt nt).1 B = get_user_events s B ∧
    (∀ i, get_event (save_event false s A d dt nt).1 i B = get_event s i B) ∧
    (⟨(getDB s A).nextId, A, d, dt, nt⟩ : EventRow) ∈
      (getDB (save_event false s A d dt nt).1 A).rows ∧
    (∀ i, getDB (delete_event (save_event false s A d dt nt).1 i B).1 A =
      getDB (save_event false s A d dt nt).1 A) ∧
    (∀ i, (⟨(getDB s A).nextId, A, d, dt, nt⟩ : EventRow) ∈
      (getDB (delete_event (save_event false s A d dt nt).1 i B).1 A).rows) := by
  have hBA : B ≠ A := fun h => hAB h.symm
  have hstore : (save_event false s A d dt nt).1 =
      setDB s A ⟨(getDB s A).rows ++ [⟨(getDB s A).nextId, A, d, dt, nt⟩],
        (getDB s A).nextId + 1⟩ := rfl
  have hB : getDB (save_event false s A d dt nt).1 B = getDB s B := by
    rw [hstore, getDB_setDB_ne _ _ _ _ hBA]
  have hA : getDB (save_event false s A d dt nt).1 A =
      ⟨(getDB s A).rows ++ [⟨(getDB s A).nextId, A, d, dt, nt⟩],
        (getDB s A).nextId + 1⟩ := by
    rw [hstore, getDB_setDB_self]
  refine ⟨rfl, ?_, fun i => ?_, ?_, fun i => ?_, fun i => ?_⟩
  · unfold get_user_events
    rw [hB]
  · unfold get_event
    rw [hB]
  · rw [hA]; simp
  · unfold delete_event
    rw [getDB_setDB_ne _ _ _ _ (fun h => hAB h)]
  · unfold delete_event
    rw [getDB_setDB_ne _ _ _ _ (fun h => hAB h), hA]
    simp

theorem C5_witness :
    (save_event false [] 1 "Dentist" "2099-01-01" "09:00").2 = some 1 ∧
    get_user_events (save_event false [] 1 "Dentist" "2099-01-01" "09:00").1 2 =
      get_user_events [] 2 ∧
    get_event (save_event false [] 1 "Dentist" "2099-01-01" "09:00").1 1 2 =
      get_event [] 1 2 ∧
    (⟨1, 1, "Dentist", "2099-01-01", "09:00"⟩ : EventRow) ∈
      (getDB (delete_event
        (save_event false [] 1 "Dentist" "2099-01-01" "09:00").1 1 2).1 1).rows := by
  have h := C5_owner_isolation [] 1 2 "Dentist" "2099-01-01" "09:00" (by decide)
  exact ⟨h.1, h.2.1, h.2.2.1 1, h.2.2.2.2.2 1⟩

/-- Claim C6: at finalization, a missing description or date aborts
with an error reply, resets the session to idle, and creates nothing;
a failing `save_event` produces the failure reply and also resets to
idle with the store unchanged (a single attempt, no retry); neither
error reply is ever the success summary. -/
theorem C6_finalization_errors (today : Date) (s : Store) (user_id : Nat)
    (sess : WizardSession) (nt : String) :
    (sess.data.description = none ∨ sess.data.event_date = none →
      process_event_creation today false s user_id sess nt =
        (s, clearedSession, .missingData)) ∧
    (∀ d ed, sess.data.description = some d → sess.data.event_date = some ed →
      process_event_creation today true s user_id sess nt =
        (s, clearedSession, .saveFailed)) ∧
    (∀ eid ds dp ntime dl,
      (Reply.missingData ≠ .success eid ds dp ntime dl) ∧
      (Reply.saveFailed ≠ .success eid ds dp ntime dl)) := by
  refine ⟨fun h => ?_, fun d ed hd hed => ?_, fun eid ds dp ntime dl => by simp⟩
  · rcases h with h | h
    · rcases hed : sess.data.event_date with _ | ed <;>
        simp [process_event_creation, h, hed]
    · rcases hd : sess.data.description with _ | d <;>
        simp [process_event_creation, h, hd]
  · simp [process_event_creation, hd, hed, save_event]

theorem C6_witness :
    process_event_creation ⟨2025, 6, 15⟩ false [] 1
      ⟨.waiting_time, ⟨some "Dentist", none, none⟩⟩ "09:00" =
      ([], clearedSession, .missingData) ∧
    process_event_creation ⟨2025, 6, 15⟩ true [] 1
      ⟨.waiting_time, ⟨some "Dentist", some "2099-01-01", none⟩⟩ "09:00" =
      ([], clearedSession, .saveFailed) :=
  ⟨(C6_finalization_errors ⟨2025, 6, 15⟩ [] 1
      ⟨.waiting_time, ⟨some "Dentist", none, none⟩⟩ "09:00").1 (Or.inr rfl),
   (C6_finalization_errors ⟨2025, 6, 15⟩ [] 1
      ⟨.waiting_time, ⟨some "Dentist", some "2099-01-01", none⟩⟩ "09:00").2.1
     "Dentist" "2099-01-01" rfl rfl⟩

/-- Claim C4: `get_events_for_specific_time` returns exactly the
events, across all owners, whose stored `notify_time` equals the
queried string (exact string match, no tolerance window): a stored
row's projection appears in the query result if and only if its
`notify_time` is the queried string. -/
theorem C4_exact_time_match (s : Store) (t : String) (uid : Nat)
    (db : UserDB) (r : EventRow) (hwf : storeWF s)
    (hdb : (uid, db) ∈ s) (hr : r ∈ db.rows) :
    (r.user_id, r.id, r.description, r.event_date) ∈
      get_events_for_specific_time s t ↔ r.notify_time = t := by
  constructor
  · intro hx
    obtain ⟨⟨u', db'⟩, hp', r', hr', ht', heq⟩ :=
      (mem_events_for_time_iff s t _).mp hx
    simp only [Prod.mk.injEq] at heq
    obtain ⟨hu', hid', hdesc', hed'⟩ := heq
    have hown : r.user_id = uid := (hwf.2 (uid, db) hdb).1 r hr
    have hown' : r'.user_id = u' := (hwf.2 (u', db') hp').1 r' hr'
    have huu : u' = uid := by rw [← hown', hu', hown]
    subst huu
    have hdbeq : db' = db := by
      have := nodup_map_eq hwf.1 hp' hdb (rfl : (u', db').1 = (u', db).1)
      exact congrArg Prod.snd this
    subst hdbeq
    have hreq : r' = r :=
      nodup_map_eq (hwf.2 (u', db') hp').2 hr' hr hid'
    rw [← hreq, ht']
  · intro ht
    exact (mem_events_for_time_iff s t _).mpr ⟨(uid, db), hdb, r, hr, ht, rfl⟩

theorem C4_witness :
    ((1 : Nat), (1 : Nat), "a", "2099-01-01") ∈
      get_events_for_specific_time
        [(1, ⟨[⟨1, 1, "a", "2099-01-01", "09:00"⟩], 2⟩),
         (2, ⟨[⟨1, 2, "b", "2099-01-02", "09:00"⟩], 2⟩)] "09:00" ∧
    ((1 : Nat), (1 : Nat), "a", "2099-01-01") ∉
      get_events_for_specific_time
        [(1, ⟨[⟨1, 1, "a", "2099-01-01", "09:00"⟩], 2⟩),
         (2, ⟨[⟨1, 2, "b", "2099-01-02", "09:00"⟩], 2⟩)] "09:01" := by
  constructor
  · exact (C4_exact_time_match
      [(1, ⟨[⟨1, 1, "a", "2099-01-01", "09:00"⟩], 2⟩),
       (2, ⟨[⟨1, 2, "b", "2099-01-02", "09:00"⟩], 2⟩)] "09:00" 1
      ⟨[⟨1, 1, "a", "2099-01-01", "09:00"⟩], 2⟩
      ⟨1, 1, "a", "2099-01-01", "09:00"⟩
      (by constructor <;> decide) (by decide) (by decide)).mpr rfl
  · intro hmem
    have := (C4_exact_time_match
      [(1, ⟨[⟨1, 1, "a", "2099-01-01", "09:00"⟩], 2⟩),
       (2, ⟨[⟨1, 2, "b", "2099-01-02", "09:00"⟩], 2⟩)] "09:01" 1
      ⟨[⟨1, 1, "a", "2099-01-01", "09:00"⟩], 2⟩
      ⟨1, 1, "a", "2099-01-01", "09:00"⟩
      (by constructor <;> decide) (by decide) (by decide)).mp hmem
    exact absurd this (by decide)

/-- Claim C10: the time-match query applies no date filter — a stored
row with the queried `notify_time` is returned even when its
`event_date` parses to a date strictly before today; such a past-dated
event is then dropped by the sweep's day-delta classification (no
notification), not by the store query. -/
theorem C10_no_date_filter (s : Store) (t : String) (uid : Nat)
    (db : UserDB) (r : EventRow) (today : Date) (ct : String) (d : Date)
    (hdb : (uid, db) ∈ s) (hr : r ∈ db.rows) (ht : r.notify_time = t)
    (htoday : validDate today = true) :
    (r.user_id, r.id, r.description, r.event_date) ∈
      get_events_for_specific_time s t ∧
    (parseStoredDate r.event_date = some d → dateLt d today = true →
      processEvent today ct (r.user_id, r.id, r.description, r.event_date) =
        none) := by
  refine ⟨(mem_events_for_time_iff s t _).mpr ⟨(uid, db), hdb, r, hr, ht, rfl⟩,
    fun hp hlt => ?_⟩
  have hvalid := parseStoredDate_valid hp
  have hord := ord_lt_of_dateLt d today hvalid htoday hlt
  have hneg : dateDiff d today < 0 := by
    unfold dateDiff
    omega
  simp only [processEvent, hp]
  rw [if_neg (by omega), if_neg (by omega)]

theorem C10_witness :
    ((1 : Nat), (1 : Nat), "a", "2020-01-01") ∈
      get_events_for_specific_time
        [(1, ⟨[⟨1, 1, "a", "2020-01-01", "09:00"⟩], 2⟩)] "09:00" ∧
    processEvent ⟨2025, 6, 15⟩ "09:00" (1, 1, "a", "2020-01-01") = none := by
  have h := C10_no_date_filter
    [(1, ⟨[⟨1, 1, "a", "2020-01-01", "09:00"⟩], 2⟩)] "09:00" 1
    ⟨[⟨1, 1, "a", "2020-01-01", "09:00"⟩], 2⟩
    ⟨1, 1, "a", "2020-01-01", "09:00"⟩ ⟨2025, 6, 15⟩ "09:00" ⟨2020, 1, 1⟩
    (by decide) (by decide) rfl (by decide)
  exact ⟨h.1, h.2 (by decide) (by decide)⟩

/-- Claim C9: any stripped free-text time accepted by the `%H:%M`
check is stored as `notify_time` verbatim, with no zero-padding
normalization; in particular `"9:30"` is accepted, and the stored
`"9:30"` can never equal the scheduler clock's `strftime("%H:%M")`
output, which is always a zero-padded five-character string. -/
theorem C9_custom_time_verbatim (today : Date) (s : Store) (user_id : Nat)
    (sess : WizardSession) (text d ed : String)
    (hc : text ≠ cancelText)
    (hdesc : sess.data.description = some d)
    (hed : sess.data.event_date = some ed)
    (hp : parseHM (pyStripS text) = true) :
    (getDB (save_custom_time today false s user_id sess text).1 user_id).rows =
      (getDB s user_id).rows ++
        [⟨(getDB s user_id).nextId, user_id, d, ed, pyStripS text⟩] ∧
    parseHM "9:30" = true ∧
    (∀ h m, get_current_time h m ≠ "9:30") := by
  refine ⟨?_, by decide, fun h m heq => ?_⟩
  · have hstep : save_custom_time today false s user_id sess text =
        process_event_creation today false s user_id sess (pyStripS text) := by
      simp [save_custom_time, hc, hp]
    rw [hstep]
    simp only [process_event_creation, hdesc, hed, save_event]
    by_cases h0 : (getDB s user_id).nextId = 0 <;>
      simp [h0, getDB_setDB_self]
  · have hlen := congrArg String.length heq
    simp only [get_current_time, pad2Chars] at hlen
    have h54 : (5 : Nat) = (4 : Nat) := hlen
    exact absurd h54 (by decide)

theorem C9_witness :
    (getDB (save_custom_time ⟨2025, 6, 15⟩ false [] 1
        ⟨.waiting_time, ⟨some "Dentist", some "2099-01-01", none⟩⟩ " 9:30 ").1 1).rows =
      (getDB [] 1).rows ++ [⟨(getDB [] 1).nextId, 1, "Dentist", "2099-01-01",
        pyStripS " 9:30 "⟩] ∧
    parseHM "9:30" = true ∧
    get_current_time 9 30 ≠ "9:30" := by
  have h := C9_custom_time_verbatim ⟨2025, 6, 15⟩ [] 1
    ⟨.waiting_time, ⟨some "Dentist", some "2099-01-01", none⟩⟩ " 9:30 "
    "Dentist" "2099-01-01" (by decide) rfl rfl (by decide)
  exact ⟨h.1, h.2.1, h.2.2 9 30⟩

/-- Claim C3: for a swept event with a parseable stored date, letting
`days_left = event_date - today`: positive delta sends the daily
countdown message (whose text contains the description, the formatted
date and the days-left count), zero delta sends the distinct
congratulatory message (a different constructor, carrying no days-left
count, whose text contains the description), negative delta sends
nothing; and the sweep never modifies the store (no deletion). -/
theorem C3_day_delta_classification (s : Store) (ok : Nat → Bool)
    (today : Date) (ct : String) (u i : Nat) (desc ed : String) (d : Date)
    (hp : parseStoredDate ed = some d) :
    (0 < dateDiff d today →
      processEvent today ct (u, i, desc, ed) =
        some (.daily desc (fmtDMY d) ct (dateDiff d today)) ∧
      ∃ p1 p2 p3 p4,
        renderOutbound (.daily desc (fmtDMY d) ct (dateDiff d today)) =
          p1 ++ desc ++ p2 ++ fmtDMY d ++ p3 ++
            toString (dateDiff d today) ++ p4) ∧
    (dateDiff d today = 0 →
      processEvent today ct (u, i, desc, ed) = some (.congrat desc) ∧
      (∀ f c n, (Outbound.congrat desc) ≠ .daily desc f c n) ∧
      ∃ q1 q2, renderOutbound (.congrat desc) = q1 ++ desc ++ q2) ∧
    (dateDiff d today < 0 →
      processEvent today ct (u, i, desc, ed) = none) ∧
    (check_and_send_reminders_body ok today ct s).1 = s := by
  refine ⟨fun hpos => ⟨?_, ?_⟩, fun hzero => ⟨?_, by simp, ?_⟩,
    fun hneg => ?_, rfl⟩
  · simp only [processEvent, hp]
    rw [if_pos hpos]
  · refine ⟨"⏰ <b>Ежедневное напоминание!</b>\n\n📝 Событие: <b>",
      "</b>\n📅 Дата: ",
      "\n⏰ Следующее напоминание: завтра в " ++ ct ++
        "\n⏳ Осталось дней: <b>", "</b>", ?_⟩
    simp [renderOutbound, String.append_assoc]
  · simp only [processEvent, hp]
    rw [if_neg (by omega), if_pos hzero]
  · exact ⟨"🎉 <b>СЕГОДНЯ НАСТУПАЕТ СОБЫТИЕ!</b>\n\n📝 <b>",
      "</b>\n\nПоздравляем! 🎊\n\nЭто последнее напоминание об этом событии.",
      rfl⟩
  · simp only [processEvent, hp]
    rw [if_neg (by omega), if_neg (by omega)]

theorem C3_witness :
    (0 : Int) < dateDiff ⟨2025, 6, 16⟩ ⟨2025, 6, 15⟩ ∧
    processEvent ⟨2025, 6, 15⟩ "12:00" (1, 1, "X", "2025-06-16") =
      some (.daily "X" (fmtDMY ⟨2025, 6, 16⟩) "12:00"
        (dateDiff ⟨2025, 6, 16⟩ ⟨2025, 6, 15⟩)) ∧
    processEvent ⟨2025, 6, 15⟩ "12:00" (1, 1, "X", "2025-06-15") =
      some (.congrat "X") ∧
    processEvent ⟨2025, 6, 15⟩ "12:00" (1, 1, "X", "2025-06-14") = none :=
  ⟨by decide,
   ((C3_day_delta_classification [] (fun _ => true) ⟨2025, 6, 15⟩ "12:00"
      1 1 "X" "2025-06-16" ⟨2025, 6, 16⟩ (by decide)).1 (by decide)).1,
   ((C3_day_delta_classification [] (fun _ => true) ⟨2025, 6, 15⟩ "12:00"
      1 1 "X" "2025-06-15" ⟨2025, 6, 15⟩ (by decide)).2.1 (by decide)).1,
   (C3_day_delta_classification [] (fun _ => true) ⟨2025, 6, 15⟩ "12:00"
      1 1 "X" "2025-06-14" ⟨2025, 6, 14⟩ (by decide)).2.2.1 (by decide)⟩

/-- Claim C7: within one sweep every matching event gets its own
independently-guarded attempt: the result list has one entry per
matching event, the entry at index `i` depends only on event `i` and
its own delivery outcome (so a delivery failure elsewhere never
prevents it), and an unparseable stored date produces the degraded
plain-text fallback carrying only the description. -/
theorem C7_sweep_isolation (s : Store) (today : Date) (ct : String)
    (ok okB : Nat → Bool) (i : Nat) :
    ((check_and_send_reminders_body ok today ct s).2).length =
      (get_events_for_specific_time s ct).length ∧
    ((check_and_send_reminders_body ok today ct s).2)[i]? =
      ((get_events_for_specific_time s ct)[i]?).map
        (attemptFor (ok i) today ct) ∧
    (ok i = okB i →
      ((check_and_send_reminders_body ok today ct s).2)[i]? =
        ((check_and_send_reminders_body okB today ct s).2)[i]?) ∧
    (∀ u eid desc ed,
      (get_events_for_specific_time s ct)[i]? = some (u, eid, desc, ed) →
      parseStoredDate ed = none →
      ((check_and_send_reminders_body ok today ct s).2)[i]? =
        some (some (.fallback desc, ok i))) := by
  have hlen := sweepAux_length ok today ct (get_events_for_specific_time s ct) 0
  have hget := sweepAux_getElem? ok today ct (get_events_for_specific_time s ct) 0 i
  have hgetB := sweepAux_getElem? okB today ct (get_events_for_specific_time s ct) 0 i
  simp only [Nat.zero_add] at hget hgetB
  refine ⟨hlen, hget, fun hok => ?_, fun u eid desc ed hev hpd => ?_⟩
  · calc ((check_and_send_reminders_body ok today ct s).2)[i]? =
        ((get_events_for_specific_time s ct)[i]?).map
          (attemptFor (ok i) today ct) := hget
    _ = ((get_events_for_specific_time s ct)[i]?).map
          (attemptFor (okB i) today ct) := by rw [hok]
    _ = ((check_and_send_reminders_body okB today ct s).2)[i]? := hgetB.symm
  · rw [show ((check_and_send_reminders_body ok today ct s).2)[i]? =
      ((get_events_for_specific_time s ct)[i]?).map
        (attemptFor (ok i) today ct) from hget, hev]
    simp [attemptFor, processEvent, hpd]

theorem C7_witness :
    ((check_and_send_reminders_body (fun _ => false) ⟨2025, 6, 15⟩ "12:00"
      [(1, ⟨[⟨1, 1, "bad", "garbage", "12:00"⟩,
             ⟨2, 1, "good", "2099-01-01", "12:00"⟩], 3⟩)]).2).length =
      (get_events_for_specific_time
        [(1, ⟨[⟨1, 1, "bad", "garbage", "12:00"⟩,
               ⟨2, 1, "good", "2099-01-01", "12:00"⟩], 3⟩)] "12:00").length ∧
    ((check_and_send_reminders_body (fun _ => false) ⟨2025, 6, 15⟩ "12:00"
      [(1, ⟨[⟨1, 1, "bad", "garbage", "12:00"⟩,
             ⟨2, 1, "good", "2099-01-01", "12:00"⟩], 3⟩)]).2)[0]? =
      some (some (.fallback "bad", false)) ∧
    ((check_and_send_reminders_body (fun _ => false) ⟨2025, 6, 15⟩ "12:00"
      [(1, ⟨[⟨1, 1, "bad", "garbage", "12:00"⟩,
             ⟨2, 1, "good", "2099-01-01", "12:00"⟩], 3⟩)]).2)[1]? =
      ((get_events_for_specific_time
        [(1, ⟨[⟨1, 1, "bad", "garbage", "12:00"⟩,
               ⟨2, 1, "good", "2099-01-01", "12:00"⟩], 3⟩)] "12:00")[1]?).map
        (attemptFor false ⟨2025, 6, 15⟩ "12:00") :=
  ⟨(C7_sweep_isolation
      [(1, ⟨[⟨1, 1, "bad", "garbage", "12:00"⟩,
             ⟨2, 1, "good", "2099-01-01", "12:00"⟩], 3⟩)]
      ⟨2025, 6, 15⟩ "12:00" (fun _ => false) (fun _ => false) 0).1,
   (C7_sweep_isolation
      [(1, ⟨[⟨1, 1, "bad", "garbage", "12:00"⟩,
             ⟨2, 1, "good", "2099-01-01", "12:00"⟩], 3⟩)]
      ⟨2025, 6, 15⟩ "12:00" (fun _ => false) (fun _ => false) 0).2.2.2
     1 1 "bad" "garbage" (by decide) (by decide),
   (C7_sweep_isolation
      [(1, ⟨[⟨1, 1, "bad", "garbage", "12:00"⟩,
             ⟨2, 1, "good", "2099-01-01", "12:00"⟩], 3⟩)]
      ⟨2025, 6, 15⟩ "12:00" (fun _ => false) (fun _ => false) 1).2.1⟩

/-- Claim C1: a user completing the wizard — start-add, a description
`d`, a date text parsing as DD.MM.YYYY and not before today, then one
of the six fixed time choices `t` — creates exactly one event: the
store holds a single row for that user with the description verbatim,
the canonical ISO form of the entered date, and `t`; an immediately
following `get_user_events` returns exactly that event, and the
wizard reports success and resets to idle. -/
theorem C1_wizard_end_to_end (today : Date) (uid : Nat) (d dt t : String)
    (date : Date) (hd : d ≠ cancelText) (hdt : dt ≠ cancelText)
    (hparse : parseDMY (pyStripS dt) = some date)
    (hfuture : dateLt date today = false) (_ht : t ∈ fixedTimes) :
    select_time today false [] uid
      (handle_date_turn today
        (handle_description_turn (start_add_event clearedSession).1 d).1 dt).1 t =
      ([(uid, ⟨[⟨1, uid, d, isoString date, t⟩], 2⟩)], clearedSession,
       .success 1 d (pyStripS dt) t (daysLeftDisplay today (isoString date))) ∧
    get_user_events [(uid, ⟨[⟨1, uid, d, isoString date, t⟩], 2⟩)] uid =
      [(1, d, isoString date, t)] := by
  have h2 : (handle_description_turn (start_add_event clearedSession).1 d).1 =
      ⟨.waiting_date, ⟨some d, none, none⟩⟩ := by
    simp [start_add_event, handle_description_turn, hd, save_description,
      clearedSession, emptyData]
  have h3 : (handle_date_turn today
      (⟨.waiting_date, ⟨some d, none, none⟩⟩ : WizardSession) dt).1 =
      ⟨.waiting_time, ⟨some d, some (isoString date), some (pyStripS dt)⟩⟩ := by
    simp [handle_date_turn, hdt, save_date, hparse, hfuture]
  constructor
  · rw [h2, h3]
    simp [select_time, process_event_creation, save_event, getDB, setDB,
      emptyDB, Option.getD]
  · simp [get_user_events, getDB, sortByDate, insertByDate]

theorem C1_witness :
    select_time ⟨2025, 6, 15⟩ false [] 1
      (handle_date_turn ⟨2025, 6, 15⟩
        (handle_description_turn
          (start_add_event clearedSession).1 "Dentist").1 "01.01.2099").1 "09:00" =
      ([(1, ⟨[⟨1, 1, "Dentist", isoString ⟨2099, 1, 1⟩, "09:00"⟩], 2⟩)],
       clearedSession,
       .success 1 "Dentist" (pyStripS "01.01.2099") "09:00"
         (daysLeftDisplay ⟨2025, 6, 15⟩ (isoString ⟨2099, 1, 1⟩))) ∧
    get_user_events
      [(1, ⟨[⟨1, 1, "Dentist", isoString ⟨2099, 1, 1⟩, "09:00"⟩], 2⟩)] 1 =
      [(1, "Dentist", isoString ⟨2099, 1, 1⟩, "09:00")] :=
  C1_wizard_end_to_end ⟨2025, 6, 15⟩ 1 "Dentist" "01.01.2099" "09:00"
    ⟨2099, 1, 1⟩ (by decide) (by decide) (by decide) (by decide) (by decide)

